import Mathlib

/-!
Shallow embedding of the cast-propagation graph optimization pass
(onnxruntime/core/optimizer/propagate_cast_ops.cc) and verification of its
specification claims.

The pass rewrites a dataflow graph in place.  The graph substrate is modelled
as a record of: the node list, an element-type table for values (NodeArgs,
identified by name), the producer and consumer maps that the source queries
with GetMutableProducerNode / GetMutableConsumerNodes and updates with
UpdateProducerNode / UpdateConsumerNodes, the edge list, the declared graph
inputs (including initializers) and outputs, and the counters backing
GenerateNodeArgName / GenerateNodeName and node-index allocation.

Modelling conventions:
- the consumer map stores node indices; resolving an index of a removed node
  yields none, matching the null entries the source checks for (and skipping
  at the call sites where the source would dereference a stale pointer);
- ORT_ENFORCE failures and similar fatal paths are modelled by returning
  none;
- the recursive traversals take a fuel argument; running out of fuel returns
  none, standing for the unbounded recursion of the source.
-/

abbrev NodeIdx := Nat

/-- TensorProto_DataType_FLOAT. -/
def FLOAT : Int := 1

/-- TensorProto_DataType_FLOAT16. -/
def FLOAT16 : Int := 10

/-- The fp16_allow table (precision-transparent operator kinds). -/
def fp16_allow : List String :=
  ["Transpose", "Reshape", "Gather", "Split", "Relu", "Where", "Dropout"]

/-- The fp16_safe table (precision-tolerant operator kinds). -/
def fp16_safe : List String :=
  ["LayerNorm", "Gelu", "FastGelu", "Tanh", "MatMul", "MatAdd", "Add",
   "Sub", "Mul", "Div", "Neg", "Gemm", "FusedMatMul", "FusedGemm"]

/-- An operator instance: index, name, kind, ordered input/output NodeArg
names, integer attributes, originating domain. -/
structure NodeT where
  idx : NodeIdx
  name : String
  opType : String
  inputs : List String
  outputs : List String
  attrs : List (String × Int)
  domain : String
deriving Repr, DecidableEq

instance : Inhabited NodeT :=
  ⟨{ idx := 0, name := (""), opType := (""), inputs := [], outputs := [],
     attrs := [], domain := ("") }⟩

/-- The graph state. -/
structure Graph where
  nodes : List NodeT
  valueType : List (String × Int)
  producers : List (String × NodeIdx)
  consumers : List (String × List NodeIdx)
  edges : List (NodeIdx × NodeIdx × Int × Int)
  graphInputs : List String
  graphOutputs : List String
  nameCounter : Nat
  nextIdx : NodeIdx
deriving Repr, DecidableEq

def lookupStr {α : Type} (m : List (String × α)) (k : String) : Option α :=
  (m.find? (fun p => p.1 == k)).map (fun p => p.2)

def setStr {α : Type} (m : List (String × α)) (k : String) (v : α) :
    List (String × α) :=
  if (m.find? (fun p => p.1 == k)).isSome then
    m.map (fun p => if p.1 == k then (k, v) else p)
  else m ++ [(k, v)]

def getNode (g : Graph) (i : NodeIdx) : Option NodeT :=
  g.nodes.find? (fun n => n.idx == i)

/-- GetMutableProducerNode: resolve the producer map entry to a live node. -/
def getProducerNode (g : Graph) (arg : String) : Option NodeT :=
  match lookupStr g.producers arg with
  | none => none
  | some i => getNode g i

/-- The node indices recorded as consumers of a value name. -/
def getConsumerIdxs (g : Graph) (arg : String) : List NodeIdx :=
  (lookupStr g.consumers arg).getD []

def updateProducer (g : Graph) (arg : String) (i : NodeIdx) : Graph :=
  { g with producers := setStr g.producers arg i }

def updateConsumers (g : Graph) (arg : String) (is : List NodeIdx) : Graph :=
  { g with consumers := setStr g.consumers arg is }

def addEdge (g : Graph) (e : NodeIdx × NodeIdx × Int × Int) : Graph :=
  { g with edges := g.edges ++ [e] }

def removeEdge (g : Graph) (e : NodeIdx × NodeIdx × Int × Int) : Graph :=
  { g with edges := g.edges.filter (fun e0 => !(e0 == e)) }

/-- graph_utils::RemoveNodeOutputEdges. -/
def removeNodeOutputEdges (g : Graph) (i : NodeIdx) : Graph :=
  { g with edges := g.edges.filter (fun e => !(e.1 == i)) }

/-- Graph::RemoveNode: drop the node and its remaining incident edges. -/
def removeNode (g : Graph) (i : NodeIdx) : Graph :=
  { g with
    nodes := g.nodes.filter (fun n => !(n.idx == i)),
    edges := g.edges.filter (fun e => !(e.1 == i) && !(e.2.1 == i)) }

/-- Apply an in-place mutation to the node with the given index. -/
def modifyNode (g : Graph) (i : NodeIdx) (f : NodeT → NodeT) : Graph :=
  { g with nodes := g.nodes.map (fun n => if n.idx == i then f n else n) }

/-- GenerateNodeArgName / GenerateNodeName: a collision-free name built from
a hint and the monotone counter. -/
def genName (g : Graph) (hint : String) : String × Graph :=
  (hint ++ "~" ++ toString g.nameCounter,
   { g with nameCounter := g.nameCounter + 1 })

/-- GetOrCreateNodeArg with a fresh type proto. -/
def getOrCreateNodeArg (g : Graph) (arg : String) (ty : Int) : Graph :=
  if (lookupStr g.valueType arg).isSome then g
  else { g with valueType := g.valueType ++ [(arg, ty)] }

/-- Graph::AddNode; returns the new node's index. -/
def addNode (g : Graph) (name opType : String) (inputs outputs : List String)
    (attrs : List (String × Int)) (domain : String) : NodeIdx × Graph :=
  (g.nextIdx,
   { g with
     nodes := g.nodes ++
       [{ idx := g.nextIdx, name := name, opType := opType, inputs := inputs,
          outputs := outputs, attrs := attrs, domain := domain }],
     nextIdx := g.nextIdx + 1 })

/-- Element type recorded for a NodeArg name. -/
def elemTypeOf (g : Graph) (arg : String) : Int :=
  (lookupStr g.valueType arg).getD 0

/-- optimizer_utils::IndexOfNodeInput / IndexOfNodeOutput. -/
def indexOfName : List String → String → Nat
  | [], _ => 0
  | x :: xs, a => if x == a then 0 else indexOfName xs a + 1

/-- The integer value of the required Cast attribute named to. -/
def attrTo (n : NodeT) : Option Int :=
  lookupStr n.attrs ("to")

/-- std::set insertion over the require_cast frontier. -/
def insertSet (l : List String) (a : String) : List String :=
  if l.contains a then l else l ++ [a]

/-- std::replace over a node's input or output definition list. -/
def replaceAll (l : List String) (a b : String) : List String :=
  l.map (fun x => if x == a then b else x)

/-- SearchUpstream: recursively traverse the graph upstream collecting all the
NodeArgs that require a cast in order to remove an FP16 Cast operation down
the graph.  The source recurses without bound; fuel exhaustion is none. -/
def searchUpstream (g : Graph) : Nat → String → List String →
    Option (List String)
  | 0, _, _ => none
  | fuel + 1, arg, acc =>
    match getProducerNode g arg with
    | none => some (insertSet acc arg)
    | some node =>
      if !(fp16_allow.contains node.opType) && !(fp16_safe.contains node.opType)
      then some (insertSet acc arg)
      else node.inputs.foldlM (fun a i => searchUpstream g fuel i a) acc

/-- SearchDownstream: recursively traverse the graph downstream collecting all
the NodeArgs that require a cast in order to remove an FP32 Cast operation up
the graph.  A consumer entry naming a removed node resolves to none and is
skipped, as the source's null check does. -/
def searchDownstream (g : Graph) : Nat → String → List String →
    Option (List String)
  | 0, _, _ => none
  | fuel + 1, arg, acc =>
    (getConsumerIdxs g arg).foldlM
      (fun a ci =>
        match getNode g ci with
        | none => some a
        | some node =>
          if fp16_allow.contains node.opType then
            node.outputs.foldlM (fun a2 o => searchDownstream g fuel o a2) a
          else some (insertSet a arg)) acc

/-- InsertCastNodes, body of the loop over require_cast: splice one Cast
after the NodeArg.  none models the ORT_ENFORCE that a NodeArg is not both a
graph input and a graph output. -/
def insertCastOne (g : Graph) (nodeArg : String) (isFp16 : Bool) :
    Option Graph :=
  if nodeArg == "" then some g
  else
    let dataType : Int := if isFp16 then FLOAT16 else FLOAT
    let isCastOutput : Bool := elemTypeOf g nodeArg == dataType
    let newType : Int :=
      if isCastOutput then (if dataType == FLOAT then FLOAT16 else FLOAT)
      else dataType
    let p1 := genName g nodeArg
    let newArg := p1.1
    let g := getOrCreateNodeArg p1.2 newArg newType
    if g.graphInputs.contains nodeArg && g.graphOutputs.contains nodeArg then
      none
    else
      let castInput := if isCastOutput then newArg else nodeArg
      let castOutput := if isCastOutput then nodeArg else newArg
      let p2 := genName g (nodeArg ++ "_cast")
      let p3 := addNode p2.2 p2.1 ("Cast") [castInput] [castOutput]
        [(("to"), dataType)] ("")
      let castIdx := p3.1
      let g := p3.2
      let pNode? := getProducerNode g nodeArg
      let outputIndex : Int :=
        match pNode? with
        | some p => Int.ofNat (indexOfName p.outputs nodeArg)
        | none => -1
      let castOutputIndex : Int := Int.ofNat (indexOfName [castOutput] castOutput)
      let g := (getConsumerIdxs g nodeArg).foldl
        (fun g ci =>
          match getNode g ci with
          | none => g
          | some c =>
            let inputIndex : Int := Int.ofNat (indexOfName c.inputs nodeArg)
            let g :=
              match pNode? with
              | some p => removeEdge g (p.idx, ci, outputIndex, inputIndex)
              | none => g
            let g := modifyNode g ci
              (fun n => { n with inputs := replaceAll n.inputs castInput castOutput })
            addEdge g (castIdx, ci, castOutputIndex, inputIndex)) g
      let g :=
        match pNode? with
        | some p =>
          let g := modifyNode g p.idx
            (fun n => { n with outputs := replaceAll n.outputs nodeArg castInput })
          let g := updateProducer g castInput p.idx
          let inputIndex : Int := Int.ofNat (indexOfName [castInput] castInput)
          addEdge g (p.idx, castIdx, outputIndex, inputIndex)
        | none => g
      some (updateProducer g castOutput castIdx)

/-- InsertCastNodes over the whole require_cast set. -/
def insertCastNodes (g : Graph) (args : List String) (isFp16 : Bool) :
    Option Graph :=
  args.foldlM (fun g a => insertCastOne g a isFp16) g

/-- RemoveCastNodes on a chain of Cast nodes.  none models the ORT_ENFORCE on
a nonempty chain.  The node values passed in play the role of the live
pointers held by the caller. -/
def removeCastNodes (g : Graph) (casts : List NodeT) : Option Graph :=
  match casts with
  | [] => none
  | lead :: rest =>
    let trail := rest.getLastD lead
    let castInput := lead.inputs.getD 0 ("")
    let castOutput := trail.outputs.getD 0 ("")
    let pNode? := getProducerNode g castInput
    let consIdxs := getConsumerIdxs g castOutput
    let outputIndex : Int :=
      match pNode? with
      | some p => Int.ofNat (indexOfName p.outputs castInput)
      | none => -1
    let g :=
      match pNode? with
      | some p =>
        let inputIndex : Int := Int.ofNat (indexOfName lead.inputs castInput)
        let g := removeEdge g (p.idx, lead.idx, outputIndex, inputIndex)
        let g := modifyNode g p.idx
          (fun n => { n with outputs := replaceAll n.outputs castInput castOutput })
        updateProducer g castOutput p.idx
      | none => g
    let g :=
      if consIdxs.length > 0 then
        let castOutputIndex : Int := Int.ofNat (indexOfName trail.outputs castOutput)
        let g := consIdxs.foldl
          (fun g ci =>
            match getNode g ci with
            | none => g
            | some c =>
              let inputIndex : Int := Int.ofNat (indexOfName c.inputs castOutput)
              let g := removeEdge g (trail.idx, ci, castOutputIndex, inputIndex)
              let g := modifyNode g ci
                (fun n => { n with inputs := replaceAll n.inputs castOutput castInput })
              match pNode? with
              | some p => addEdge g (p.idx, ci, outputIndex, inputIndex)
              | none => g) g
        updateConsumers g castInput consIdxs
      else g
    let g := casts.foldl (fun g c => removeNode (removeNodeOutputEdges g c.idx) c.idx) g
    some g

/-- A loop of the shape for (x : xs) modified |= step(x), where a step can
fail fatally.  Every sweep of the pass has this form. -/
def accumFold {α : Type} (step : Graph → α → Option (Graph × Bool)) :
    Graph → Bool → List α → Option (Graph × Bool)
  | g, m, [] => some (g, m)
  | g, m, x :: xs =>
    match step g x with
    | none => none
    | some (g1, m1) => accumFold step g1 (m || m1) xs

/-- RemoveBackToBackCasts.  The node sweep is over a snapshot of the node
indices, each resolved at its turn; an index whose node has vanished is
skipped.  Inside, the parent node's data is the value captured when the node
was reached, like the reference the source holds. -/
def removeBackToBackCasts (g : Graph) : Option (Graph × Bool) :=
  accumFold
    (fun g i =>
      match getNode g i with
      | none => some (g, false)
      | some node =>
        if node.opType == "Cast" then
          match attrTo node with
          | none => none
          | some t =>
            let isFp : Bool := t == FLOAT
            let isFp16 : Bool := t == FLOAT16
            accumFold
              (fun g castOutput =>
                accumFold
                  (fun g ci =>
                    match getNode g ci with
                    | none => some (g, false)
                    | some child =>
                      if child.opType == "Cast" then
                        match attrTo child with
                        | none => none
                        | some tc =>
                          let isChildFp : Bool := tc == FLOAT
                          let isChildFp16 : Bool := tc == FLOAT16
                          if (isFp && isChildFp16) || (isFp16 && isChildFp) then
                            (removeCastNodes g [node, child]).map (fun g2 => (g2, true))
                          else if (isFp16 && isChildFp16) || (isFp && isChildFp) then
                            (removeCastNodes g [child]).map (fun g2 => (g2, true))
                          else some (g, false)
                      else some (g, false))
                  g false (getConsumerIdxs g castOutput))
              g false node.outputs
        else some (g, false))
    g false (g.nodes.map (fun n => n.idx))

/-- The all_inputs_have_casts check of PropagateForwards: every input's
producer is a Cast to FLOAT.  none models the ORT_ENFORCE on a Cast without
the to attribute. -/
def allInputsHaveCasts (g : Graph) : List String → Option Bool
  | [] => some true
  | input :: rest =>
    match getProducerNode g input with
    | none => some false
    | some p =>
      if p.opType == "Cast" then
        match attrTo p with
        | none => none
        | some t =>
          if t == FLOAT then allInputsHaveCasts g rest else some false
      else some false

/-- The removal loop of the fp16_safe branch of PropagateForwards: for each
input position of the live node, re-look up the producer and remove it as a
cast chain.  A null producer would be dereferenced by the source; modelled as
none. -/
def removeInputCasts (g : Graph) (nidx : NodeIdx) : List Nat → Option Graph
  | [] => some g
  | k :: ks =>
    let input := ((getNode g nidx).map (fun n => n.inputs.getD k (""))).getD ("")
    match getProducerNode g input with
    | none => none
    | some p =>
      match removeCastNodes g [p] with
      | none => none
      | some g1 => removeInputCasts g1 nidx ks

/-- PropagateForwards.  The consumer recursion of the final branch spends one
unit of fuel per hop. -/
def propagateForwards : Nat → Graph → Option NodeT → Option (Graph × Bool)
  | 0, _, _ => none
  | _ + 1, g, none => some (g, false)
  | fuel + 1, g, some node =>
    if node.opType == "Cast" then
      match attrTo node with
      | none => none
      | some t =>
        if t == FLOAT then
          let castOutput := node.outputs.getD 0 ("")
          match searchDownstream g (fuel + 1) castOutput [] with
          | none => none
          | some requireCast =>
            if requireCast.length > 0 && !(requireCast.contains castOutput) then
              match removeCastNodes g [node] with
              | none => none
              | some g1 =>
                match insertCastNodes g1 requireCast false with
                | none => none
                | some g2 => some (g2, true)
            else some (g, false)
        else some (g, false)
    else if fp16_safe.contains node.opType then
      match allInputsHaveCasts g node.inputs with
      | none => none
      | some false => some (g, false)
      | some true =>
        match removeInputCasts g node.idx (List.range node.inputs.length) with
        | none => none
        | some g1 =>
          let nodeArg := ((getNode g1 node.idx).map
            (fun n => n.outputs.getD 0 (""))).getD ("")
          match insertCastNodes g1 [nodeArg] false with
          | none => none
          | some g2 => some (g2, true)
    else
      accumFold
        (fun g o =>
          accumFold
            (fun g ci => propagateForwards fuel g (getNode g ci))
            g false (getConsumerIdxs g o))
        g false node.outputs

/-- PropagateBackwards. -/
def propagateBackwards : Nat → Graph → Option NodeT → Option (Graph × Bool)
  | 0, _, _ => none
  | _ + 1, g, none => some (g, false)
  | fuel + 1, g, some node =>
    if node.opType == "Cast" then
      match attrTo node with
      | none => none
      | some t =>
        if t == FLOAT16 then
          let castInput := node.inputs.getD 0 ("")
          match searchUpstream g (fuel + 1) castInput [] with
          | none => none
          | some requireCast =>
            if !(requireCast.contains castInput) then
              match removeCastNodes g [node] with
              | none => none
              | some g1 =>
                match insertCastNodes g1 requireCast true with
                | none => none
                | some g2 => some (g2, true)
            else some (g, false)
        else some (g, false)
    else
      accumFold
        (fun g input => propagateBackwards fuel g (getProducerNode g input))
        g false node.inputs

/-- FuseNodes: replace sibling Cast nodes that share one input with a single
node carrying the concatenation of their outputs, then delete the originals.
The source indexes nodes[0]; an empty list never reaches it. -/
def fuseNodes (g : Graph) (input : String) (nodes : List NodeT) : Graph :=
  match nodes with
  | [] => g
  | n0 :: _ =>
    let outputs := (nodes.map (fun n => n.outputs)).flatten
    let p := genName g (n0.name ++ "_replace")
    let p2 := addNode p.2 p.1 n0.opType [input] outputs n0.attrs n0.domain
    nodes.foldl (fun g n => removeNode (removeNodeOutputEdges g n.idx) n.idx) p2.2

/-- The sibling-collection loop of FuseSubgraphs: partition the live Cast
consumers of a value by target type, in order. -/
def collectCastSiblings (g : Graph) : List NodeIdx →
    Option (List NodeT × List NodeT)
  | [] => some ([], [])
  | ci :: rest =>
    match collectCastSiblings g rest with
    | none => none
    | some (s16, s) =>
      match getNode g ci with
      | none => some (s16, s)
      | some node =>
        if node.opType == "Cast" then
          match attrTo node with
          | none => none
          | some t =>
            if t == FLOAT16 then some (node :: s16, s)
            else if t == FLOAT then some (s16, node :: s)
            else some (s16, s)
        else some (s16, s)

/-- FuseSubgraphs rooted at one parent node. -/
def fuseSubgraphs (g : Graph) (parent : NodeT) : Option (Graph × Bool) :=
  accumFold
    (fun g output =>
      match collectCastSiblings g (getConsumerIdxs g output) with
      | none => none
      | some (s16, s) =>
        let gm : Graph × Bool :=
          if s16.length > 1 then (fuseNodes g output s16, true) else (g, false)
        let gm2 : Graph × Bool :=
          if s.length > 1 then (fuseNodes gm.1 output s, true) else gm
        some gm2)
    g false parent.outputs

/-- Sweep of step (1) of ApplyImpl: attempt forward propagation at every
node of a snapshot of the node list. -/
def forwardStage (fuel : Nat) (g : Graph) : Option (Graph × Bool) :=
  accumFold (fun g i => propagateForwards fuel g (getNode g i))
    g false (g.nodes.map (fun n => n.idx))

/-- Sweep of step (3) of ApplyImpl: backward propagation from the producer of
every graph output. -/
def backwardStage (fuel : Nat) (g : Graph) (m : Bool) : Option (Graph × Bool) :=
  accumFold (fun g o => propagateBackwards fuel g (getProducerNode g o))
    g m g.graphOutputs

/-- Sweep of step (4) of ApplyImpl: sibling fusion rooted at every node. -/
def fuseStage (g : Graph) (m : Bool) : Option (Graph × Bool) :=
  accumFold
    (fun g i =>
      match getNode g i with
      | none => some (g, false)
      | some n => fuseSubgraphs g n)
    g m (g.nodes.map (fun n => n.idx))

/-- PropagateCastOps::ApplyImpl.  The removed_nodes deque is threaded through
the source but never written to, so it is empty when the final deletion loop
runs. -/
def applyImpl (fuel : Nat) (g0 : Graph) : Option (Graph × Bool) :=
  let removedNodes : List NodeIdx := []
  match forwardStage fuel g0 with
  | none => none
  | some (g1, m1) =>
    match removeBackToBackCasts g1 with
    | none => none
    | some (g2, m2) =>
      let m := m1 || m2
      match (if m then some (g2, m) else backwardStage fuel g2 m) with
      | none => none
      | some (g3, m3) =>
        match fuseStage g3 m3 with
        | none => none
        | some (g4, m4) => some (removedNodes.foldl removeNode g4, m4)

/-! Observation functions and concrete scenarios used to settle the claims. -/

/-- Number of Cast nodes in the graph. -/
def castCount (g : Graph) : Nat :=
  (g.nodes.filter (fun m => m.opType == "Cast")).length

/-- Number of Cast nodes with the given target type. -/
def castCountTo (g : Graph) (t : Int) : Nat :=
  (g.nodes.filter (fun m => m.opType == "Cast" && (attrTo m == some t))).length

/-- A one-node graph whose transparent operator consumes its own output: the
smallest cyclic input to the frontier searches. -/
def cycleGraph : Graph :=
  { nodes := [{ idx := 0, name := ("loop"), opType := ("Transpose"),
                inputs := [("x")], outputs := [("x")], attrs := [], domain := ("") }],
    valueType := [(("x"), FLOAT16)],
    producers := [(("x"), 0)],
    consumers := [(("x"), [0])],
    edges := [], graphInputs := [], graphOutputs := [],
    nameCounter := 0, nextIdx := 1 }

/-- Section 8 backward-relocation scenario: a producer outside both tables
feeds a transparent operator, then a narrow conversion, then a sink, whose
output is the graph output. -/
def backRelocGraph : Graph :=
  { nodes :=
      [{ idx := 0, name := ("P"), opType := ("Conv"), inputs := [],
         outputs := [("a")], attrs := [], domain := ("") },
       { idx := 1, name := ("T"), opType := ("Transpose"), inputs := [("a")],
         outputs := [("b")], attrs := [], domain := ("") },
       { idx := 2, name := ("nc"), opType := ("Cast"), inputs := [("b")],
         outputs := [("c")], attrs := [(("to"), FLOAT16)], domain := ("") },
       { idx := 3, name := ("D"), opType := ("Sink"), inputs := [("c")],
         outputs := [("d")], attrs := [], domain := ("") }],
    valueType := [(("a"), FLOAT), (("b"), FLOAT), (("c"), FLOAT16), (("d"), FLOAT16)],
    producers := [(("a"), 0), (("b"), 1), (("c"), 2), (("d"), 3)],
    consumers := [(("a"), [1]), (("b"), [2]), (("c"), [3])],
    edges := [(0, 1, 0, 0), (1, 2, 0, 0), (2, 3, 0, 0)],
    graphInputs := [], graphOutputs := [("d")],
    nameCounter := 0, nextIdx := 4 }

/-- Checks the outcome of the section 8 backward relocation on
backRelocGraph: the pass reports a modification, exactly one conversion
remains, it is the narrow conversion of the original source value placed
before the transparent operator, and the transparent operator now reads the
narrow value. -/
def backRelocCheck (r : Option (Graph × Bool)) : Bool :=
  match r with
  | some (g, m) =>
    m && castCount g == 1 &&
    g.nodes.any (fun n =>
      n.opType == "Cast" && attrTo n == some FLOAT16 &&
      n.inputs == [("a")] && n.outputs == [("a~0")]) &&
    (match getNode g 1 with
     | some t => t.inputs == [("a~0")]
     | none => false) &&
    elemTypeOf g ("a~0") == FLOAT16
  | none => false

/-- Aliased-input scenario for the tolerant rewrite: a conversion to a type
that is neither FLOAT nor FLOAT16 produces v, a wide conversion turns v into
w, and a tolerant operator consumes w on both of its input slots. -/
def aliasGraph : Graph :=
  { nodes :=
      [{ idx := 0, name := ("q"), opType := ("Cast"), inputs := [("x0")],
         outputs := [("v")], attrs := [(("to"), 6)], domain := ("") },
       { idx := 1, name := ("c"), opType := ("Cast"), inputs := [("v")],
         outputs := [("w")], attrs := [(("to"), FLOAT)], domain := ("") },
       { idx := 2, name := ("add"), opType := ("Add"), inputs := [("w"), ("w")],
         outputs := [("y")], attrs := [], domain := ("") }],
    valueType := [(("x0"), FLOAT), (("v"), 6), (("w"), FLOAT), (("y"), FLOAT)],
    producers := [(("v"), 0), (("w"), 1), (("y"), 2)],
    consumers := [(("x0"), [0]), (("v"), [1]), (("w"), [2])],
    edges := [(0, 1, 0, 0), (1, 2, 0, 0), (1, 2, 0, 1)],
    graphInputs := [("x0")], graphOutputs := [("y")],
    nameCounter := 0, nextIdx := 3 }

/-- The narrow conversion node of backRelocGraph. -/
def backRelocCastNode : NodeT :=
  { idx := 2, name := ("nc"), opType := ("Cast"), inputs := [("b")],
    outputs := [("c")], attrs := [(("to"), FLOAT16)], domain := ("") }

/-- The wide conversion node of aliasGraph. -/
def aliasCastNode : NodeT :=
  { idx := 1, name := ("c"), opType := ("Cast"), inputs := [("v")],
    outputs := [("w")], attrs := [(("to"), FLOAT)], domain := ("") }

/-- Forward-propagation scenario: a wide conversion followed by a transparent
operator followed by a sink outside the transparent table, so the downstream
frontier is the transparent operator's output. -/
def fwdGraph : Graph :=
  { nodes :=
      [{ idx := 0, name := ("wc"), opType := ("Cast"), inputs := [("v")],
         outputs := [("w")], attrs := [(("to"), FLOAT)], domain := ("") },
       { idx := 1, name := ("T"), opType := ("Transpose"), inputs := [("w")],
         outputs := [("u")], attrs := [], domain := ("") },
       { idx := 2, name := ("D"), opType := ("Sink"), inputs := [("u")],
         outputs := [("r")], attrs := [], domain := ("") }],
    valueType := [(("v"), FLOAT16), (("w"), FLOAT), (("u"), FLOAT), (("r"), FLOAT)],
    producers := [(("w"), 0), (("u"), 1), (("r"), 2)],
    consumers := [(("v"), [0]), (("w"), [1]), (("u"), [2])],
    edges := [(0, 1, 0, 0), (1, 2, 0, 0)],
    graphInputs := [("v")], graphOutputs := [("r")],
    nameCounter := 0, nextIdx := 3 }

/-- The wide conversion node of fwdGraph. -/
def fwdCastNode : NodeT :=
  { idx := 0, name := ("wc"), opType := ("Cast"), inputs := [("v")],
    outputs := [("w")], attrs := [(("to"), FLOAT)], domain := ("") }

/-- Sibling-fusion scenario: one producer value read by two narrow
conversions, each consumed by its own sink. -/
def siblingGraph : Graph :=
  { nodes :=
      [{ idx := 0, name := ("P"), opType := ("Src"), inputs := [],
         outputs := [("o")], attrs := [], domain := ("") },
       { idx := 1, name := ("s1"), opType := ("Cast"), inputs := [("o")],
         outputs := [("u1")], attrs := [(("to"), FLOAT16)], domain := ("") },
       { idx := 2, name := ("s2"), opType := ("Cast"), inputs := [("o")],
         outputs := [("u2")], attrs := [(("to"), FLOAT16)], domain := ("") },
       { idx := 3, name := ("d1"), opType := ("SinkA"), inputs := [("u1")],
         outputs := [("r1")], attrs := [], domain := ("") },
       { idx := 4, name := ("d2"), opType := ("SinkB"), inputs := [("u2")],
         outputs := [("r2")], attrs := [], domain := ("") }],
    valueType := [(("o"), FLOAT), (("u1"), FLOAT16), (("u2"), FLOAT16),
                  (("r1"), FLOAT16), (("r2"), FLOAT16)],
    producers := [(("o"), 0), (("u1"), 1), (("u2"), 2), (("r1"), 3), (("r2"), 4)],
    consumers := [(("o"), [1, 2]), (("u1"), [3]), (("u2"), [4])],
    edges := [(0, 1, 0, 0), (0, 2, 0, 0), (1, 3, 0, 0), (2, 4, 0, 0)],
    graphInputs := [], graphOutputs := [("r1"), ("r2")],
    nameCounter := 0, nextIdx := 5 }

/-- Outcome of sibling fusion on siblingGraph: the two sibling conversions
are replaced by one new conversion of the same kind and attributes, with the
shared input and the concatenated outputs, and each sink still reads an
output the fused node produces. -/
def siblingCheck (r : Option (Graph × Bool)) : Bool :=
  match r with
  | some (g, m) =>
    m && (getNode g 1).isNone && (getNode g 2).isNone &&
    castCount g == 1 &&
    g.nodes.any (fun n =>
      n.opType == "Cast" && attrTo n == some FLOAT16 &&
      n.inputs == [("o")] && n.outputs == [("u1"), ("u2")]) &&
    (match getNode g 3, getNode g 4 with
     | some d1, some d2 =>
       g.nodes.any (fun n => n.opType == "Cast" &&
         d1.inputs.all (fun i => n.outputs.contains i) &&
         d2.inputs.all (fun i => n.outputs.contains i))
     | _, _ => false)
  | none => false

/-- The first sibling conversion of siblingGraph. -/
def s1Node : NodeT :=
  { idx := 1, name := ("s1"), opType := ("Cast"), inputs := [("o")],
    outputs := [("u1")], attrs := [(("to"), FLOAT16)], domain := ("") }

/-- The second sibling conversion of siblingGraph. -/
def s2Node : NodeT :=
  { idx := 2, name := ("s2"), opType := ("Cast"), inputs := [("o")],
    outputs := [("u2")], attrs := [(("to"), FLOAT16)], domain := ("") }

/-- A castless fixpoint graph for the idempotence witness. -/
def fixpointGraph : Graph :=
  { nodes :=
      [{ idx := 0, name := ("S"), opType := ("Sink"), inputs := [],
         outputs := [("o")], attrs := [], domain := ("") }],
    valueType := [(("o"), FLOAT)],
    producers := [(("o"), 0)],
    consumers := [],
    edges := [], graphInputs := [], graphOutputs := [("o")],
    nameCounter := 0, nextIdx := 1 }

/-- Claim C6: contrary to the claim, neither frontier search memoizes visited
Values: on the one-node cyclic graph whose transparent operator consumes its
own output, both searches recurse unboundedly (they exhaust every fuel
bound, although the graph has a single Value). -/
theorem search_no_memoization_cycle_divergence :
    ∀ (fuel : Nat) (acc : List String),
      searchDownstream cycleGraph fuel ("x") acc = none ∧
      searchUpstream cycleGraph fuel ("x") acc = none := by
  intro fuel
  induction fuel with
  | zero => intro acc; exact ⟨rfl, rfl⟩
  | succ n ih =>
    intro acc
    have hnode : getNode cycleGraph 0 =
        some { idx := 0, name := ("loop"), opType := ("Transpose"),
               inputs := [("x")], outputs := [("x")], attrs := [], domain := ("") } := by
      decide
    constructor
    · have hc : getConsumerIdxs cycleGraph ("x") = [0] := by decide
      have ht : fp16_allow.contains ("Transpose") = true := by decide
      simp only [searchDownstream, hc, List.foldlM, hnode, ht, if_true]
      simp [(ih acc).1]
    · have hp : getProducerNode cycleGraph ("x") =
          some { idx := 0, name := ("loop"), opType := ("Transpose"),
                 inputs := [("x")], outputs := [("x")], attrs := [], domain := ("") } := by
        decide
      have hcond : (!(fp16_allow.contains ("Transpose")) &&
          !(fp16_safe.contains ("Transpose"))) = false := by decide
      simp only [searchUpstream, hp, hcond, Bool.false_eq_true, if_false, List.foldlM]
      simp [(ih acc).2]

/-- Claim C1: at a wide-precision conversion, Forward Propagation runs the
Downstream Search from the conversion's output; when the frontier is
non-empty and free of the conversion's own output it eliminates the
conversion and synthesizes wide conversions at every frontier Value, and
otherwise it leaves the graph unchanged and reports no modification. -/
theorem forward_cast_branch (fuel : Nat) (g : Graph) (node : NodeT)
    (F : List String)
    (hop : node.opType = "Cast")
    (hattr : attrTo node = some FLOAT)
    (hsearch : searchDownstream g (fuel + 1) (node.outputs.getD 0 ("")) [] = some F) :
    (F ≠ [] → F.contains (node.outputs.getD 0 ("")) = false →
      propagateForwards (fuel + 1) g (some node) =
        (removeCastNodes g [node]).bind
          (fun g1 => (insertCastNodes g1 F false).map (fun g2 => (g2, true)))) ∧
    ((F = [] ∨ F.contains (node.outputs.getD 0 ("")) = true) →
      propagateForwards (fuel + 1) g (some node) = some (g, false)) := by
  have hbeq : (node.opType == "Cast") = true := by
    rw [hop]; rfl
  constructor
  · intro hne hnc
    have hcond : (decide (F.length > 0) && !(F.contains (node.outputs.getD 0 ("")))) = true := by
      rw [hnc]
      simp [List.length_pos, hne]
    simp only [propagateForwards, hbeq, if_true, hattr, hsearch, hcond]
    cases hr : removeCastNodes g [node] with
    | none => simp
    | some g1 =>
      cases hi : insertCastNodes g1 F false with
      | none => simp [hi]
      | some g2 => simp [hi]
  · intro hcase
    have hcond : (decide (F.length > 0) && !(F.contains (node.outputs.getD 0 ("")))) = false := by
      rcases hcase with h | h
      · subst h; rfl
      · rw [h]; simp
    simp only [propagateForwards, hbeq, if_true, hattr, hsearch, hcond,
      Bool.false_eq_true, if_false]
    split <;> rfl

/-- Witness for claim C1: a concrete wide conversion whose frontier is the
transparent consumer's downstream boundary (rewrite fires), and the aliased
scenario's wide conversion whose frontier contains its own output (graph
unchanged). -/
theorem forward_cast_branch_witness :
    (propagateForwards 4 fwdGraph (some fwdCastNode) =
      (removeCastNodes fwdGraph [fwdCastNode]).bind
        (fun g1 => (insertCastNodes g1 [("u")] false).map (fun g2 => (g2, true)))) ∧
    (propagateForwards 4 aliasGraph (some aliasCastNode) = some (aliasGraph, false)) := by
  constructor
  · exact (forward_cast_branch 3 fwdGraph fwdCastNode [("u")] (by decide) (by decide)
      (by decide)).1 (by decide) (by decide)
  · exact (forward_cast_branch 3 aliasGraph aliasCastNode [("w")] (by decide) (by decide)
      (by decide)).2 (Or.inr (by decide))

/-- Claim C3: at a narrow-precision conversion reached by Backward
Propagation, the Upstream Search runs from the conversion's input; when the
conversion's own input is not in the frontier the conversion is eliminated
and narrow conversions are synthesized at every frontier Value (otherwise
nothing changes); and on the section 8 relocation shape the conversion moves
before the transparent operator with the total conversion count still 1. -/
theorem backward_cast_branch_and_relocation (fuel : Nat) (g : Graph)
    (node : NodeT) (F : List String)
    (hop : node.opType = "Cast")
    (hattr : attrTo node = some FLOAT16)
    (hsearch : searchUpstream g (fuel + 1) (node.inputs.getD 0 ("")) [] = some F) :
    (F.contains (node.inputs.getD 0 ("")) = false →
      propagateBackwards (fuel + 1) g (some node) =
        (removeCastNodes g [node]).bind
          (fun g1 => (insertCastNodes g1 F true).map (fun g2 => (g2, true)))) ∧
    (F.contains (node.inputs.getD 0 ("")) = true →
      propagateBackwards (fuel + 1) g (some node) = some (g, false)) ∧
    backRelocCheck (applyImpl 8 backRelocGraph) = true := by
  have hbeq : (node.opType == "Cast") = true := by
    rw [hop]; rfl
  refine ⟨?_, ?_, ?_⟩
  · intro hnc
    have hcond : (!(F.contains (node.inputs.getD 0 ("")))) = true := by
      rw [hnc]; rfl
    simp only [propagateBackwards, hbeq, if_true, hattr, hsearch, hcond]
    cases hr : removeCastNodes g [node] with
    | none => simp
    | some g1 =>
      cases hi : insertCastNodes g1 F true with
      | none => simp [hi]
      | some g2 => simp [hi]
  · intro hc
    have hcond : (!(F.contains (node.inputs.getD 0 ("")))) = false := by
      rw [hc]; rfl
    simp only [propagateBackwards, hbeq, if_true, hattr, hsearch, hcond,
      Bool.false_eq_true, if_false]
    split <;> rfl
  · decide

/-- Witness for claim C3: the narrow conversion of the relocation scenario,
whose upstream frontier is the non-transparent producer's output and does
not contain the conversion's own input. -/
theorem backward_cast_branch_and_relocation_witness :
    propagateBackwards 4 backRelocGraph (some backRelocCastNode) =
      (removeCastNodes backRelocGraph [backRelocCastNode]).bind
        (fun g1 => (insertCastNodes g1 [("a")] true).map (fun g2 => (g2, true))) :=
  (backward_cast_branch_and_relocation 3 backRelocGraph backRelocCastNode [("a")]
    (by decide) (by decide) (by decide)).1 (by decide)

/-- Claim C10 is contradicted by the code: on the aliased-input scenario the
pass deletes the conversion whose target type is neither FLOAT nor FLOAT16.
The tolerant rewrite re-looks up the producer of each input after earlier
removals rewrote the inputs, so the second lookup resolves to the upstream
Cast-to-INT32, which RemoveCastNodes then deletes. -/
theorem pass_removes_foreign_cast :
    castCountTo aliasGraph 6 = 1 ∧
    (applyImpl 8 aliasGraph).map (fun p => (castCountTo p.1 6, p.2)) =
      some (0, true) := by
  constructor
  · decide
  · decide

/-- Claim C7: one invocation runs forward propagation over every node, then
back-to-back cancellation, then backward propagation from the producer of
every graph output only when the first two steps changed nothing, then
sibling fusion at every node, then deletion of the pending-removal queue
(always empty here), reporting whether the graph changed. -/
theorem orchestrator_stage_order (fuel : Nat) (g0 g1 g2 : Graph) (m1 m2 : Bool)
    (h1 : forwardStage fuel g0 = some (g1, m1))
    (h2 : removeBackToBackCasts g1 = some (g2, m2)) :
    ((m1 || m2) = true → applyImpl fuel g0 = fuseStage g2 (m1 || m2)) ∧
    ((m1 || m2) = false → applyImpl fuel g0 =
      (backwardStage fuel g2 false).bind (fun p => fuseStage p.1 p.2)) := by
  constructor
  · intro h
    simp only [applyImpl, h1, h2, h, if_true]
    cases hf : fuseStage g2 true with
    | none => rfl
    | some p =>
      obtain ⟨g4, m4⟩ := p
      rfl
  · intro h
    simp only [applyImpl, h1, h2, h, Bool.false_eq_true, if_false]
    cases hb : backwardStage fuel g2 false with
    | none => rfl
    | some p =>
      obtain ⟨g3, m3⟩ := p
      cases hf : fuseStage g3 m3 with
      | none => simp [hf]
      | some p2 =>
        obtain ⟨g4, m4⟩ := p2
        simp [hf, List.foldl]

/-- Witness for claim C7 on the fixpoint graph, where the first two stages
change nothing, so the backward stage runs. -/
theorem orchestrator_stage_order_witness :
    applyImpl 4 fixpointGraph =
      (backwardStage 4 fixpointGraph false).bind (fun p => fuseStage p.1 p.2) :=
  (orchestrator_stage_order 4 fixpointGraph fixpointGraph fixpointGraph false false
    (by decide) (by decide)).2 rfl

/-- A step |= sweep whose steps leave the graph alone whenever they report no
change leaves the graph alone whenever the whole sweep reports no change. -/
theorem accumFold_false_inv {α : Type} (step : Graph → α → Option (Graph × Bool))
    (H : ∀ g x g1 mx, step g x = some (g1, mx) → mx = false → g1 = g) :
    ∀ (xs : List α) (g : Graph) (m : Bool) (g' : Graph),
      accumFold step g m xs = some (g', false) → g' = g ∧ m = false := by
  intro xs
  induction xs with
  | nil =>
    intro g m g' h
    simp only [accumFold, Option.some.injEq, Prod.mk.injEq] at h
    exact ⟨h.1.symm, h.2⟩
  | cons x xs ih =>
    intro g m g' h
    simp only [accumFold] at h
    cases hs : step g x with
    | none => rw [hs] at h; exact absurd h (by simp)
    | some p =>
      obtain ⟨g1, mx⟩ := p
      rw [hs] at h
      obtain ⟨hg, hm⟩ := ih g1 (m || mx) g' h
      have hmx : mx = false := by
        cases mx
        · rfl
        · rw [Bool.or_true] at hm; exact absurd hm (by simp)
      have hm0 : m = false := by
        cases m
        · rfl
        · rw [Bool.true_or] at hm; exact absurd hm (by simp)
      exact ⟨hg.trans (H g x g1 mx hs hmx), hm0⟩

/-- A sweep started with the modification flag already set reports it set. -/
theorem accumFold_true {α : Type} (step : Graph → α → Option (Graph × Bool)) :
    ∀ (xs : List α) (g g' : Graph) (m' : Bool),
      accumFold step g true xs = some (g', m') → m' = true := by
  intro xs
  induction xs with
  | nil =>
    intro g g' m' h
    simp only [accumFold, Option.some.injEq, Prod.mk.injEq] at h
    exact h.2.symm
  | cons x xs ih =>
    intro g g' m' h
    simp only [accumFold] at h
    cases hs : step g x with
    | none => rw [hs] at h; exact absurd h (by simp)
    | some p =>
      obtain ⟨g1, mx⟩ := p
      rw [hs] at h
      have h2 : accumFold step g1 (true || mx) xs = some (g', m') := h
      rw [Bool.true_or] at h2
      exact ih g1 g' m' h2

/-- Forward propagation that reports no change leaves the graph unchanged. -/
theorem propagateForwards_unchanged :
    ∀ (fuel : Nat) (g : Graph) (n? : Option NodeT) (g' : Graph),
      propagateForwards fuel g n? = some (g', false) → g' = g := by
  intro fuel
  induction fuel with
  | zero =>
    intro g n? g' h
    exact absurd h (by simp [propagateForwards])
  | succ n ih =>
    intro g n? g' h
    cases n? with
    | none =>
      simp only [propagateForwards, Option.some.injEq, Prod.mk.injEq] at h
      exact h.1.symm
    | some node =>
      simp only [propagateForwards] at h
      split at h
      case isTrue =>
        repeat' split at h
        all_goals simp_all
      case isFalse =>
        split at h
        case isTrue =>
          repeat' split at h
          all_goals simp_all
        case isFalse =>
          refine (accumFold_false_inv _ ?_ node.outputs g false g' h).1
          intro g1 o ga ma hs hma
          subst hma
          refine (accumFold_false_inv _ ?_ (getConsumerIdxs g1 o) g1 false ga hs).1
          intro g2 ci gb mb hs2 hmb
          subst hmb
          exact ih g2 (getNode g2 ci) gb hs2

/-- Backward propagation that reports no change leaves the graph unchanged. -/
theorem propagateBackwards_unchanged :
    ∀ (fuel : Nat) (g : Graph) (n? : Option NodeT) (g' : Graph),
      propagateBackwards fuel g n? = some (g', false) → g' = g := by
  intro fuel
  induction fuel with
  | zero =>
    intro g n? g' h
    exact absurd h (by simp [propagateBackwards])
  | succ n ih =>
    intro g n? g' h
    cases n? with
    | none =>
      simp only [propagateBackwards, Option.some.injEq, Prod.mk.injEq] at h
      exact h.1.symm
    | some node =>
      simp only [propagateBackwards] at h
      split at h
      case isTrue =>
        repeat' split at h
        all_goals simp_all
      case isFalse =>
        refine (accumFold_false_inv _ ?_ node.inputs g false g' h).1
        intro g1 i ga ma hs hma
        subst hma
        exact ih g1 (getProducerNode g1 i) ga hs

/-- Back-to-back cancellation that reports no change leaves the graph
unchanged. -/
theorem removeBackToBackCasts_unchanged (g g' : Graph)
    (h : removeBackToBackCasts g = some (g', false)) : g' = g := by
  simp only [removeBackToBackCasts] at h
  refine (accumFold_false_inv _ ?_ (g.nodes.map (fun n => n.idx)) g false g' h).1
  intro g1 i ga ma hs hma
  subst hma
  split at hs
  · simp only [Option.some.injEq, Prod.mk.injEq] at hs
    exact hs.1.symm
  · split at hs
    case isTrue =>
      split at hs
      · exact absurd hs (by simp)
      · refine (accumFold_false_inv _ ?_ _ g1 false ga hs).1
        intro g2 o gb mb hs2 hmb
        subst hmb
        refine (accumFold_false_inv _ ?_ _ g2 false gb hs2).1
        intro g3 ci gc mc hs3 hmc
        subst hmc
        split at hs3
        · simp only [Option.some.injEq, Prod.mk.injEq] at hs3
          exact hs3.1.symm
        · split at hs3
          case isTrue =>
            split at hs3
            · exact absurd hs3 (by simp)
            · split at hs3
              case isTrue =>
                cases hr : removeCastNodes g3 _ with
                | none => rw [hr] at hs3; exact absurd hs3 (by simp)
                | some g4 => rw [hr] at hs3; simp at hs3
              case isFalse =>
                split at hs3
                case isTrue =>
                  cases hr : removeCastNodes g3 _ with
                  | none => rw [hr] at hs3; exact absurd hs3 (by simp)
                  | some g4 => rw [hr] at hs3; simp at hs3
                case isFalse =>
                  simp only [Option.some.injEq, Prod.mk.injEq] at hs3
                  exact hs3.1.symm
          case isFalse =>
            simp only [Option.some.injEq, Prod.mk.injEq] at hs3
            exact hs3.1.symm
    case isFalse =>
      simp only [Option.some.injEq, Prod.mk.injEq] at hs
      exact hs.1.symm

/-- Sibling fusion rooted at one node that reports no change leaves the graph
unchanged. -/
theorem fuseSubgraphs_unchanged (g : Graph) (parent : NodeT) (g' : Graph)
    (h : fuseSubgraphs g parent = some (g', false)) : g' = g := by
  simp only [fuseSubgraphs] at h
  refine (accumFold_false_inv _ ?_ parent.outputs g false g' h).1
  intro g1 o ga ma hs hma
  subst hma
  split at hs
  · exact absurd hs (by simp)
  · simp only [Option.some.injEq] at hs
    split at hs
    case isTrue =>
      simp only [Prod.mk.injEq] at hs
      exact absurd hs.2 (by simp)
    case isFalse =>
      split at hs
      case isTrue =>
        simp only [Prod.mk.injEq] at hs
        exact absurd hs.2 (by simp)
      case isFalse =>
        simp only [Prod.mk.injEq] at hs
        exact hs.1.symm

/-- The forward sweep reports no change only when it left the graph alone. -/
theorem forwardStage_unchanged (fuel : Nat) (g g' : Graph)
    (h : forwardStage fuel g = some (g', false)) : g' = g := by
  simp only [forwardStage] at h
  refine (accumFold_false_inv _ ?_ (g.nodes.map (fun n => n.idx)) g false g' h).1
  intro g1 i ga ma hs hma
  subst hma
  exact propagateForwards_unchanged fuel g1 (getNode g1 i) ga hs

/-- The backward sweep started unmodified reports no change only when it left
the graph alone. -/
theorem backwardStage_unchanged (fuel : Nat) (g g' : Graph)
    (h : backwardStage fuel g false = some (g', false)) : g' = g := by
  simp only [backwardStage] at h
  refine (accumFold_false_inv _ ?_ g.graphOutputs g false g' h).1
  intro g1 o ga ma hs hma
  subst hma
  exact propagateBackwards_unchanged fuel g1 (getProducerNode g1 o) ga hs

/-- The fusion sweep reports no change only when it left the graph alone and
was entered unmodified. -/
theorem fuseStage_unchanged (g : Graph) (m : Bool) (g' : Graph)
    (h : fuseStage g m = some (g', false)) : g' = g ∧ m = false := by
  simp only [fuseStage] at h
  refine accumFold_false_inv _ ?_ (g.nodes.map (fun n => n.idx)) g m g' h
  intro g1 i ga ma hs hma
  subst hma
  split at hs
  · simp only [Option.some.injEq, Prod.mk.injEq] at hs
    exact hs.1.symm
  · exact fuseSubgraphs_unchanged g1 _ ga hs

/-- The fusion sweep entered with the modification flag set reports it set. -/
theorem fuseStage_true (g g' : Graph) (m' : Bool)
    (h : fuseStage g true = some (g', m')) : m' = true := by
  simp only [fuseStage] at h
  exact accumFold_true _ (g.nodes.map (fun n => n.idx)) g g' m' h

/-- An invocation that reports no modification left the graph unchanged. -/
theorem applyImpl_unchanged (fuel : Nat) (g g' : Graph)
    (h : applyImpl fuel g = some (g', false)) : g' = g := by
  simp only [applyImpl] at h
  cases h1 : forwardStage fuel g with
  | none => simp only [h1] at h; exact absurd h (by simp)
  | some p1 =>
    obtain ⟨g1, m1⟩ := p1
    simp only [h1] at h
    cases h2 : removeBackToBackCasts g1 with
    | none => simp only [h2] at h; exact absurd h (by simp)
    | some p2 =>
      obtain ⟨g2, m2⟩ := p2
      simp only [h2] at h
      cases hm : (m1 || m2) with
      | true =>
        simp only [hm, if_true] at h
        cases h4 : fuseStage g2 true with
        | none => simp only [h4] at h; exact absurd h (by simp)
        | some p4 =>
          obtain ⟨g4, m4⟩ := p4
          simp only [h4, List.foldl, Option.some.injEq, Prod.mk.injEq] at h
          exact absurd (fuseStage_true g2 g4 m4 h4) (by rw [h.2]; simp)
      | false =>
        simp only [hm, Bool.false_eq_true, if_false] at h
        cases h3 : backwardStage fuel g2 false with
        | none => simp only [h3] at h; exact absurd h (by simp)
        | some p3 =>
          obtain ⟨g3, m3⟩ := p3
          simp only [h3] at h
          cases h4 : fuseStage g3 m3 with
          | none => simp only [h4] at h; exact absurd h (by simp)
          | some p4 =>
            obtain ⟨g4, m4⟩ := p4
            simp only [h4, List.foldl, Option.some.injEq, Prod.mk.injEq] at h
            obtain ⟨hg4, hm4⟩ := h
            rw [hm4] at h4
            obtain ⟨hg43, hm3⟩ := fuseStage_unchanged g3 m3 g4 h4
            rw [hm3] at h3
            have hg32 := backwardStage_unchanged fuel g2 g3 h3
            have hm2 : m2 = false := by
              cases m2
              · rfl
              · rw [Bool.or_true] at hm; exact absurd hm (by simp)
            rw [hm2] at h2
            have hg21 := removeBackToBackCasts_unchanged g1 g2 h2
            have hm1 : m1 = false := by
              cases m1
              · rfl
              · rw [Bool.true_or] at hm; exact absurd hm (by simp)
            rw [hm1] at h1
            have hg1 := forwardStage_unchanged fuel g g1 h1
            rw [← hg4, hg43, hg32, hg21, hg1]

/-- Claim C9: once an invocation of the orchestrator reports no modification,
invoking it again reports no modification on the same graph (the pass is
idempotent at a fixpoint). -/
theorem orchestrator_idempotent_at_fixpoint (fuel : Nat) (g g' : Graph)
    (h : applyImpl fuel g = some (g', false)) :
    applyImpl fuel g' = some (g', false) := by
  have hg := applyImpl_unchanged fuel g g' h
  rw [hg]
  rw [hg] at h
  exact h

/-- Witness for claim C9 on the castless fixpoint graph. -/
theorem orchestrator_idempotent_at_fixpoint_witness :
    applyImpl 4 fixpointGraph = some (fixpointGraph, false) :=
  orchestrator_idempotent_at_fixpoint 4 fixpointGraph fixpointGraph (by decide)

/-- The node list remaining after the deletion loop of FuseNodes: everything
whose index matches a fused node is gone. -/
theorem removalFold_nodes :
    ∀ (nds : List NodeT) (g0 : Graph),
      (nds.foldl (fun g n => removeNode (removeNodeOutputEdges g n.idx) n.idx) g0).nodes
        = g0.nodes.filter (fun m => nds.all (fun nd => !(m.idx == nd.idx))) := by
  intro nds
  induction nds with
  | nil =>
    intro g0
    simp [List.foldl]
  | cons nd nds ih =>
    intro g0
    simp only [List.foldl]
    rw [ih]
    simp only [removeNode, removeNodeOutputEdges]
    rw [List.filter_filter]
    congr 1
    funext m
    rw [List.all_cons]
    exact Bool.and_comm _ _

/-- Claim C8: sibling fusion replaces a group of conversions sharing one
input with a single node of the same operator kind, attributes and domain,
the same single input, and the concatenation of the originals' outputs; the
originals are deleted, and every output a downstream consumer was reading is
still produced by the fused node.  The last conjunct exercises the grouping
pass on the concrete two-sibling scenario. -/
theorem sibling_fusion_replacement (g : Graph) (input : String)
    (n0 : NodeT) (rest : List NodeT)
    (hidx : ∀ nd ∈ (n0 :: rest), nd.idx ≠ g.nextIdx) :
    (∃ newN ∈ (fuseNodes g input (n0 :: rest)).nodes,
      newN.opType = n0.opType ∧ newN.attrs = n0.attrs ∧ newN.domain = n0.domain ∧
      newN.inputs = [input] ∧
      newN.outputs = ((n0 :: rest).map (fun x => x.outputs)).flatten ∧
      ∀ nd ∈ (n0 :: rest), ∀ o ∈ nd.outputs, o ∈ newN.outputs) ∧
    (∀ nd ∈ (n0 :: rest), ∀ m ∈ (fuseNodes g input (n0 :: rest)).nodes, m.idx ≠ nd.idx) ∧
    siblingCheck (match getNode siblingGraph 0 with
      | some p => fuseSubgraphs siblingGraph p
      | none => none) = true := by
  have hnodes : (fuseNodes g input (n0 :: rest)).nodes =
      (g.nodes ++ [({ idx := g.nextIdx,
                      name := (n0.name ++ "_replace") ++ "~" ++ toString g.nameCounter,
                      opType := n0.opType, inputs := [input],
                      outputs := ((n0 :: rest).map (fun x => x.outputs)).flatten,
                      attrs := n0.attrs, domain := n0.domain } : NodeT)]).filter
        (fun m => (n0 :: rest).all (fun nd => !(m.idx == nd.idx))) := by
    simp only [fuseNodes, genName, addNode]
    rw [removalFold_nodes]
  refine ⟨?_, ?_, ?_⟩
  · refine ⟨({ idx := g.nextIdx,
               name := (n0.name ++ "_replace") ++ "~" ++ toString g.nameCounter,
               opType := n0.opType, inputs := [input],
               outputs := ((n0 :: rest).map (fun x => x.outputs)).flatten,
               attrs := n0.attrs, domain := n0.domain } : NodeT),
      ?_, rfl, rfl, rfl, rfl, rfl, ?_⟩
    · rw [hnodes, List.mem_filter]
      constructor
      · exact List.mem_append_right _ (by simp)
      · rw [List.all_eq_true]
        intro nd hnd
        have hne := hidx nd hnd
        simp [Ne.symm hne]
    · intro nd hnd o ho
      exact List.mem_flatten.mpr ⟨nd.outputs, List.mem_map_of_mem _ hnd, ho⟩
  · intro nd hnd m hm
    rw [hnodes, List.mem_filter] at hm
    have hall := (List.all_eq_true.mp hm.2) nd hnd
    intro hcontra
    rw [hcontra] at hall
    simp at hall
  · decide

/-- Witness for claim C8: the two concrete sibling narrow conversions fused
into one node with both original outputs. -/
theorem sibling_fusion_replacement_witness :
    siblingCheck (match getNode siblingGraph 0 with
      | some p => fuseSubgraphs siblingGraph p
      | none => none) = true :=
  (sibling_fusion_replacement siblingGraph ("o") s1Node [s2Node] (by decide)).2.2

/-- Searching for an index that an index-based filter removes finds
nothing. -/
theorem find?_idx_filter_none (l : List NodeT) (q : NodeIdx → Bool) (j : NodeIdx)
    (hq : q j = false) :
    (l.filter (fun m => q m.idx)).find? (fun m => m.idx == j) = none := by
  induction l with
  | nil => rfl
  | cons a l ih =>
    by_cases hqa : q a.idx = true
    · rw [List.filter_cons_of_pos (by simpa using hqa)]
      have hb : (a.idx == j) = false := by
        cases hb : (a.idx == j) with
        | true =>
          rw [eq_of_beq hb] at hqa
          rw [hqa] at hq
          exact absurd hq (by simp)
        | false => rfl
      simp only [List.find?, hb]
      exact ih
    · rw [List.filter_cons_of_neg (by simpa using hqa)]
      exact ih

